import Mathlib

/-!
Verification development for a two-pipeline spreadsheet-cleaning tool:
a row-filtering engine (`filter.py`: `FilterCondition`, `FilterGroup`,
`apply_filter_condition`, `filter_excel_data`) and a fuzzy-matching
deduplication pass (`main.py`: `is_similar_name`, `remove_duplicates`).

The embedding models the in-memory table as `DataFrame` (a column-name list
plus rows of cell `Value`s).  Host-library behaviour that the source relies
on (pandas cell comparison, `astype(str)` coercion including the
`NaN -> "nan"` stringification, `pd.to_datetime` with `errors="coerce"`,
`Series.isin` NaN matching, fuzzywuzzy's `fuzz.ratio`) is modelled by
explicit executable functions below, each noted at its definition.
Exception-raising paths are modelled with `Except String`; the error message
strings follow the source's format strings (library-raised messages are
summarised).  Only the repository's default date format `%d/%m/%Y` is given
a parsing semantics, and calendar validation is the simplified
`1 <= d <= 31`, `1 <= m <= 12` check; the claims only exercise valid dates.
-/

/-- A parsed calendar date (pandas `Timestamp.date()` granularity: the
source compares `.dt.date`, discarding time of day). -/
structure Date where
  y : Int
  m : Int
  d : Int
deriving DecidableEq

/-- Lexicographic order on calendar dates, as Python `date` comparison. -/
def dateLtB (a b : Date) : Bool :=
  decide (a.y < b.y) ||
    (decide (a.y = b.y) &&
      (decide (a.m < b.m) || (decide (a.m = b.m) && decide (a.d < b.d))))

/-- A table cell: string, number, parsed date, or missing (`NaN`/`NaT`).
Numbers are conflated to `Int` (the claims never distinguish int/float). -/
inductive Value where
  | vStr (s : String)
  | vInt (n : Int)
  | vDate (d : Date)
  | vNull
deriving DecidableEq

/-- `True` exactly on the missing-cell value, as `pd.isna` on a cell. -/
def isNullV : Value → Bool
  | .vNull => true
  | _ => false

/-- Left-pad a one-digit number with `0` (for the date stringification). -/
def pad2 (n : Int) : String :=
  if 0 ≤ n ∧ n < 10 then "0" ++ toString n else toString n

/-- Python `str()` of a cell.  `NaN` stringifies to `"nan"`, which is what
pandas `astype(str)` produces for missing cells; dates print ISO-style. -/
def valueToPyStr : Value → String
  | .vStr s => s
  | .vInt n => toString n
  | .vDate d => toString d.y ++ "-" ++ pad2 d.m ++ "-" ++ pad2 d.d
  | .vNull => "nan"

/-- Pandas scalar equality (`==` on cells): same-typed values compare,
`NaN` equals nothing (not even `NaN`), cross-typed values are unequal. -/
def valEq : Value → Value → Bool
  | .vStr a, .vStr b => decide (a = b)
  | .vInt a, .vInt b => decide (a = b)
  | .vDate a, .vDate b => decide (a = b)
  | _, _ => false

/-- `Series.isin` elementwise test: pandas `isin` additionally matches a
missing cell against a missing entry of the probe list. -/
def valEqNaN (a b : Value) : Bool :=
  valEq a b || (isNullV a && isNullV b)

/-- Membership of a cell in a list of values, as `Series.isin`. -/
def pyIsin (a : Value) (l : List Value) : Bool :=
  l.any (fun v => valEqNaN a v)

/-- Comparability for ordered comparison: pandas raises `TypeError` when
ordering differently-typed non-null cells; `NaN` compares (falsely). -/
def valCompat : Value → Value → Bool
  | .vNull, _ => true
  | _, .vNull => true
  | .vInt _, .vInt _ => true
  | .vStr _, .vStr _ => true
  | .vDate _, .vDate _ => true
  | _, _ => false

/-- Total strict greater-than on compatible cells; `NaN` is never greater
(pandas `NaN > x` is `False`). -/
def gtB : Value → Value → Bool
  | .vInt a, .vInt b => decide (b < a)
  | .vStr a, .vStr b => decide (b < a)
  | .vDate a, .vDate b => dateLtB b a
  | _, _ => false

/-- Total strict less-than on compatible cells; `NaN` is never less. -/
def ltB : Value → Value → Bool
  | .vInt a, .vInt b => decide (a < b)
  | .vStr a, .vStr b => decide (a < b)
  | .vDate a, .vDate b => dateLtB a b
  | _, _ => false

/-- Summarised message of the `TypeError` pandas raises when ordering
incompatible types. -/
def typeErrMsg : String :=
  "TypeError: unsupported comparison between differently typed values"

/-- `Series > value` / `Series < value` elementwise: `Except`-valued
because an incompatible pair raises. -/
def valGtB (a b : Value) : Except String Bool :=
  if valCompat a b then .ok (gtB a b) else .error typeErrMsg

/-- See `valGtB`. -/
def valLtB (a b : Value) : Except String Bool :=
  if valCompat a b then .ok (ltB a b) else .error typeErrMsg

/-- `needle` occurs at the start of the second list (Python `startswith`). -/
def takesStart : List Char → List Char → Bool
  | [], _ => true
  | _ :: _, [] => false
  | a :: as, b :: bs => a == b && takesStart as bs

/-- `needle` occurs somewhere in the second list (Python `in` on strings). -/
def hasSubstr (needle : List Char) : List Char → Bool
  | [] => needle.isEmpty
  | b :: rest => takesStart needle (b :: rest) || hasSubstr needle rest

/-- Python `str.lower()` (ASCII; the claims use ASCII names). -/
def pyLower (s : String) : String := String.mk (s.toList.map Char.toLower)

/-- Drop leading whitespace characters. -/
def dropLeadWs : List Char → List Char
  | [] => []
  | c :: rest => if c.isWhitespace then dropLeadWs rest else c :: rest

/-- Python `str.strip()`. -/
def pyStrip (s : String) : String :=
  String.mk ((dropLeadWs (dropLeadWs s.toList).reverse).reverse)

/-- Worker for `pySplitWs`: split on whitespace runs, dropping empties. -/
def splitWsAux : List Char → List Char → List (List Char)
  | [], acc => if acc.isEmpty then [] else [acc.reverse]
  | c :: rest, acc =>
    if c.isWhitespace then
      if acc.isEmpty then splitWsAux rest [] else acc.reverse :: splitWsAux rest []
    else splitWsAux rest (c :: acc)

/-- Python `str.split()` with no argument: split on whitespace runs. -/
def pySplitWs (s : String) : List String :=
  (splitWsAux s.toList []).map String.mk

/-- Fuelled longest-common-subsequence worker (the fuel, an upper bound on
the summed lengths, keeps the recursion structural so that terms reduce). -/
def lcsFuel : Nat → List Char → List Char → Nat
  | 0, _, _ => 0
  | _ + 1, [], _ => 0
  | _ + 1, _ :: _, [] => 0
  | fuel + 1, a :: as, b :: bs =>
    if a = b then lcsFuel fuel as bs + 1
    else max (lcsFuel fuel (a :: as) bs) (lcsFuel fuel as (b :: bs))

/-- Longest common subsequence length of two character lists; the quantity
`fuzz.ratio` is built from (indel similarity `2*lcs/(len1+len2)`). -/
def lcsLen (l1 l2 : List Char) : Nat :=
  lcsFuel (l1.length + l2.length) l1 l2

/-- Round `num/den` to the nearest integer, ties to even, as Python's
`round` used by fuzzywuzzy's score normalisation. -/
def roundHalfEven (num den : Nat) : Nat :=
  let q := num / den
  let r := num % den
  if 2 * r < den then q
  else if den < 2 * r then q + 1
  else if q % 2 = 0 then q else q + 1

/-- fuzzywuzzy `fuzz.ratio`: `round(100 * 2 * M / (len1 + len2))` with `M`
the matched-character count (LCS length); two empty strings score 100. -/
def fuzz_ratio (s1 s2 : String) : Nat :=
  let a := s1.toList
  let b := s2.toList
  let t := a.length + b.length
  if t = 0 then 100 else roundHalfEven (200 * lcsLen a b) t

/-- `max((fuzz.ratio(part1, part2) for part2 in parts2), default=0)`:
best score of one token against a token list, defaulting to 0. -/
def bestOf (p1 : String) (parts2 : List String) : Nat :=
  (parts2.map (fun p2 => fuzz_ratio p1 p2)).foldl max 0

/-- Python `min` of a list, `none` on empty. -/
def pyMin : List Nat → Option Nat
  | [] => none
  | a :: as => some (as.foldl min a)

/-- The normalized token set of a name cell: `str(name).lower().strip()`
then whitespace-split; `dedup` models the Python `set` (order irrelevant
to every use: `min`, `max` and membership). -/
def nameTokens (v : Value) : List String :=
  (pySplitWs (pyStrip (pyLower (valueToPyStr v)))).dedup

/-- The final decision of `is_similar_name` line 47:
`len(best_matches) > 0 and min(best_matches) >= threshold`. -/
def minThresholdCheck (threshold : Int) (best_matches : List Nat) : Bool :=
  match pyMin best_matches with
  | none => false
  | some m => decide (threshold ≤ (m : Int))

/-- `is_similar_name` from `main.py` lines 18-47: missing names never
match; token-set sizes differing by more than 1 reject immediately; else
every token of the first name's set needs a best `fuzz.ratio` against the
second set at or above the threshold (default 80). -/
def is_similar_name (name1 name2 : Value) (threshold : optParam Int 80) : Bool :=
  if isNullV name1 || isNullV name2 then false
  else
    let parts1 := nameTokens name1
    let parts2 := nameTokens name2
    if 1 < (((parts1.length : Int) - (parts2.length : Int)).natAbs) then false
    else
      let best_matches := parts1.map (fun p1 => bestOf p1 parts2)
      minThresholdCheck threshold best_matches

/-- Decidable equality for `Except` results (used to compare two runs of
the pipeline concretely). -/
def exceptDecEq {ε α : Type} [DecidableEq ε] [DecidableEq α] :
    DecidableEq (Except ε α) := fun a b =>
  match a, b with
  | .ok x, .ok y =>
    if h : x = y then .isTrue (by rw [h]) else .isFalse (by simp [h])
  | .error x, .error y =>
    if h : x = y then .isTrue (by rw [h]) else .isFalse (by simp [h])
  | .ok _, .error _ => .isFalse (by simp)
  | .error _, .ok _ => .isFalse (by simp)

instance {ε α : Type} [DecidableEq ε] [DecidableEq α] :
    DecidableEq (Except ε α) := exceptDecEq

/-- `FilterCondition` from `filter.py` lines 6-26: a column name, a value
(scalar or list), a comparison kind string, and a date-parsing format. -/
inductive FilterValue where
  | fvScalar (v : Value)
  | fvList (vs : List Value)
deriving DecidableEq

/-- Python `str()` of a condition value (scalars as cells; a list prints
bracketed — an approximation, unused by any claim). -/
def fvToPyStr : FilterValue → String
  | .fvScalar v => valueToPyStr v
  | .fvList vs => "[" ++ String.intercalate ", " (vs.map valueToPyStr) ++ "]"

/-- See the `FilterValue` docstring. -/
structure FilterCondition where
  column : String
  value : FilterValue
  condition : String
  date_format : String
deriving DecidableEq

/-- `FilterGroup` from `filter.py` lines 28-35: conditions OR-combined. -/
structure FilterGroup where
  conditions : List FilterCondition
deriving DecidableEq

/-- One top-level element of a filter expression
(`Union[FilterGroup, FilterCondition]`). -/
inductive FilterElem where
  | cond (c : FilterCondition)
  | group (g : FilterGroup)
deriving DecidableEq

/-- The in-memory table: named columns plus rows of cells.  Rows are
positional lists aligned with `cols`. -/
structure DataFrame where
  cols : List String
  rows : List (List Value)
deriving DecidableEq

/-- Cell of a row at a column index (missing positions read as `NaN`). -/
def getCell (r : List Value) (i : Nat) : Value := r.getD i Value.vNull

/-- Index of a column name in the table's header. -/
def colIdx (df : DataFrame) (cname : String) : Option Nat :=
  df.cols.findIdx? (fun x => x = cname)

/-- The cell list of one column (`df[col]`). -/
def colValues (df : DataFrame) (i : Nat) : List Value :=
  df.rows.map (fun r => getCell r i)

/-- Rewrite one cell of a row through `f`. -/
def setCellF (r : List Value) (i : Nat) (f : Value → Value) : List Value :=
  r.set i (f (getCell r i))

/-- In-place column coercion (`df[col] = df[col].astype(...)` /
`pd.to_datetime(df[col], ...)`): every row's cell at `i` is rewritten. -/
def mapCol (df : DataFrame) (i : Nat) (f : Value → Value) : DataFrame :=
  ⟨df.cols, df.rows.map (fun r => setCellF r i f)⟩

/-- `astype(str)` on a cell (missing cells become the string `"nan"`). -/
def toStrCell (v : Value) : Value := .vStr (valueToPyStr v)

/-- Split a character list on `/` (worker for the `%d/%m/%Y` parser). -/
def splitSlashAux : List Char → List Char → List (List Char)
  | [], acc => [acc.reverse]
  | c :: rest, acc =>
    if c == Char.ofNat 47 then acc.reverse :: splitSlashAux rest []
    else splitSlashAux rest (c :: acc)

/-- Decimal value of a digit list (worker for `parseNatStrict`). -/
def digitsToNat : List Char → Nat → Nat
  | [], acc => acc
  | c :: rest, acc => digitsToNat rest (acc * 10 + (c.toNat - 48))

/-- Parse a non-empty all-digit string as a natural number. -/
def parseNatStrict (s : String) : Option Nat :=
  let l := s.toList
  if l ≠ [] ∧ l.all Char.isDigit then some (digitsToNat l 0) else none

/-- Strict `strptime`-style parse of a `%d/%m/%Y` date string: exactly
three slash-separated all-digit fields, day in 1..31, month in 1..12
(full per-month calendar validation is elided; the repository and the
claims only exercise valid dates). -/
def parseDMY (s : String) : Option Date :=
  match (splitSlashAux s.toList []).map String.mk with
  | [ds, ms, ys] =>
    match parseNatStrict ds, parseNatStrict ms, parseNatStrict ys with
    | some d, some m, some y =>
      if 1 ≤ d ∧ d ≤ 31 ∧ 1 ≤ m ∧ m ≤ 12 then
        some ⟨(y : Int), (m : Int), (d : Int)⟩
      else none
    | _, _, _ => none
  | _ => none

/-- `pd.to_datetime(s, format=fmt)` string parsing.  Only the repository's
default format `%d/%m/%Y` is modelled; other formats parse nothing. -/
def strptime (fmt s : String) : Option Date :=
  if fmt = "%d/%m/%Y" then parseDMY s else none

/-- `pd.to_datetime(cell, format=fmt, errors="coerce")`: dates pass
through, strings parse or coerce to `NaT`, anything else coerces. -/
def toDateCell (fmt : String) : Value → Value
  | .vDate d => .vDate d
  | .vStr s => match strptime fmt s with
    | some d => .vDate d
    | none => .vNull
  | _ => .vNull

/-- Python-style quote character for message formatting. -/
def pyQuote : String := String.singleton (Char.ofNat 39)

/-- The `KeyError` message of `filter_excel_data` lines 106/114: note the
format string mentions only the column, not which file/table. -/
def colNotFoundMsg (cname : String) : String :=
  ("Column " ++ pyQuote) ++ cname ++ (pyQuote ++ " not found in the Excel file")

/-- Summarised `KeyError` for a direct missing-column indexing. -/
def keyErrMsg (cname : String) : String := "KeyError: " ++ cname

/-- Summarised `ValueError` from `pd.to_datetime` (no `errors="coerce"` at
line 46) when the condition's string value does not parse. -/
def dateParseMsg (s : String) : String :=
  "ValueError: time data " ++ s ++ " does not match the format"

/-- Summarised `AttributeError` when `.date()` is taken on a non-date
condition value (line 51/53/55 with a non-string, non-datetime value). -/
def attrErrMsg : String := "AttributeError: value has no date attribute"

/-- Summarised pandas `TypeError` for `isin` with a non-list argument. -/
def isinErrMsg : String := "TypeError: only list-like objects are allowed"

/-- Summarised error for comparing a whole column against a list. -/
def listCmpMsg : String := "ValueError: lengths must match to compare"

/-- Conversion of `condition.value` in the date branch (lines 44-48):
strings are parsed strictly (raising on failure), datetimes pass through,
and any other value is kept unconverted (`none` here), to raise later only
if `.date()` is actually taken. -/
def dateFilterValue (fmt : String) : FilterValue → Except String (Option Date)
  | .fvScalar (.vStr s) =>
    match strptime fmt s with
    | some d => .ok (some d)
    | none => .error (dateParseMsg s)
  | .fvScalar (.vDate d) => .ok (some d)
  | _ => .ok none

/-- `cell.date() == filter_date.date()` on an already-coerced cell:
`NaT` never matches. -/
def dateMaskEq (v : Value) (d : Date) : Bool :=
  match v with
  | .vDate d2 => decide (d2 = d)
  | _ => false

/-- `cell.date() > filter_date.date()`; `NaT` never matches. -/
def dateMaskGt (v : Value) (d : Date) : Bool :=
  match v with
  | .vDate d2 => dateLtB d d2
  | _ => false

/-- `cell.date() < filter_date.date()`; `NaT` never matches. -/
def dateMaskLt (v : Value) (d : Date) : Bool :=
  match v with
  | .vDate d2 => dateLtB d2 d
  | _ => false

/-- The three `date_`-prefixed comparisons of lines 50-55; an unrecognized
`date_` kind falls through to the all-true mask of line 74, but the
`.date()` call happens only in the three recognized branches, so only
those raise on an unconverted (non-date) value. -/
def dateCondMask (kind : String) (fd : Option Date) (col : List Value) :
    Except String (List Bool) :=
  if kind = "date_equals" then
    match fd with
    | some d => .ok (col.map (fun v => dateMaskEq v d))
    | none => .error attrErrMsg
  else if kind = "date_greater" then
    match fd with
    | some d => .ok (col.map (fun v => dateMaskGt v d))
    | none => .error attrErrMsg
  else if kind = "date_less" then
    match fd with
    | some d => .ok (col.map (fun v => dateMaskLt v d))
    | none => .error attrErrMsg
  else .ok (col.map (fun _ => true))

/-- `.str.contains(str(value), na=False)` on a coerced cell.  After
`astype(str)` every cell is a string (missing cells read `"nan"`), so the
`na=False` fallback (kept here for non-strings) is unreachable. -/
def containsMask (v : Value) (fv : FilterValue) : Bool :=
  match v with
  | .vStr s => hasSubstr (fvToPyStr fv).toList s.toList
  | _ => false

/-- `.str.startswith(str(value))` on a coerced cell. -/
def startsMask (v : Value) (fv : FilterValue) : Bool :=
  match v with
  | .vStr s => takesStart (fvToPyStr fv).toList s.toList
  | _ => false

/-- Elementwise `Except`-valued map (a raising pandas columnwise op). -/
def mapExceptB (f : Value → Except String Bool) : List Value → Except String (List Bool)
  | [] => .ok []
  | v :: rest =>
    match f v with
    | .error e => .error e
    | .ok b =>
      match mapExceptB f rest with
      | .error e => .error e
      | .ok bs => .ok (b :: bs)

/-- `apply_filter_condition` from `filter.py` lines 37-74.  Returns the
boolean mask and the (possibly column-coerced) table; raising paths are
`Except.error`.  Branch structure follows the source: the `date_` prefix
test first (with in-place date coercion and strict value conversion), the
string coercion for `contains`/`starts_with`, then the comparison kinds,
and the all-true fallback of line 74 for unrecognized kinds (which touches
no column at all). -/
def apply_filter_condition (df : DataFrame) (c : FilterCondition) :
    Except String (List Bool × DataFrame) :=
  if takesStart "date_".toList c.condition.toList then
    match colIdx df c.column with
    | none => .error (keyErrMsg c.column)
    | some i =>
      let df2 := mapCol df i (toDateCell c.date_format)
      match dateFilterValue c.date_format c.value with
      | .error e => .error e
      | .ok fd =>
        match dateCondMask c.condition fd (colValues df2 i) with
        | .error e => .error e
        | .ok m => .ok (m, df2)
  else if c.condition = "contains" || c.condition = "starts_with" then
    match colIdx df c.column with
    | none => .error (keyErrMsg c.column)
    | some i =>
      let df2 := mapCol df i toStrCell
      if c.condition = "contains" then
        .ok ((colValues df2 i).map (fun v => containsMask v c.value), df2)
      else
        .ok ((colValues df2 i).map (fun v => startsMask v c.value), df2)
  else if c.condition = "equals" then
    match colIdx df c.column with
    | none => .error (keyErrMsg c.column)
    | some i =>
      match c.value with
      | .fvScalar v => .ok ((colValues df i).map (fun cv => valEq cv v), df)
      | .fvList _ => .error listCmpMsg
  else if c.condition = "in" then
    match colIdx df c.column with
    | none => .error (keyErrMsg c.column)
    | some i =>
      match c.value with
      | .fvList vs => .ok ((colValues df i).map (fun cv => pyIsin cv vs), df)
      | .fvScalar _ => .error isinErrMsg
  else if c.condition = "greater_than" then
    match colIdx df c.column with
    | none => .error (keyErrMsg c.column)
    | some i =>
      match c.value with
      | .fvScalar v =>
        match mapExceptB (fun cv => valGtB cv v) (colValues df i) with
        | .error e => .error e
        | .ok m => .ok (m, df)
      | .fvList _ => .error typeErrMsg
  else if c.condition = "less_than" then
    match colIdx df c.column with
    | none => .error (keyErrMsg c.column)
    | some i =>
      match c.value with
      | .fvScalar v =>
        match mapExceptB (fun cv => valLtB cv v) (colValues df i) with
        | .error e => .error e
        | .ok m => .ok (m, df)
      | .fvList _ => .error typeErrMsg
  else .ok (df.rows.map (fun _ => true), df)

/-- `df[mask]`: keep the rows whose mask entry is true. -/
def filterRows (df : DataFrame) (mask : List Bool) : DataFrame :=
  ⟨df.cols, ((df.rows.zip mask).filter (fun p => p.2)).map (fun p => p.1)⟩

/-- Pointwise OR of two masks (`group_mask | condition_mask`). -/
def orMask (a b : List Bool) : List Bool := List.zipWith or a b

/-- The inner loop of `filter_excel_data` lines 111-116: fold a group's
conditions over the running OR mask, checking column existence first and
threading the (mutating) table through each condition. -/
def applyGroupConds (df : DataFrame) (conds : List FilterCondition)
    (acc : List Bool) : Except String (List Bool × DataFrame) :=
  match conds with
  | [] => .ok (acc, df)
  | c :: rest =>
    if df.cols.contains c.column then
      match apply_filter_condition df c with
      | .error e => .error e
      | .ok (m, df2) => applyGroupConds df2 rest (orMask acc m)
    else .error (colNotFoundMsg c.column)

/-- `filter_excel_data` from `filter.py` lines 102-117 (the in-memory
loop; file loading/saving is I/O plumbing outside this model): single
conditions AND in by shrinking the table, groups OR their members starting
from an all-false mask and then shrink. -/
def filter_excel_data (df : DataFrame) : List FilterElem → Except String DataFrame
  | [] => .ok df
  | .cond c :: rest =>
    if df.cols.contains c.column then
      match apply_filter_condition df c with
      | .error e => .error e
      | .ok (m, df2) => filter_excel_data (filterRows df2 m) rest
    else .error (colNotFoundMsg c.column)
  | .group g :: rest =>
    match applyGroupConds df g.conditions (df.rows.map (fun _ => false)) with
    | .error e => .error e
    | .ok (gm, df2) => filter_excel_data (filterRows df2 gm) rest

/-- `COLUMN_KEY` from `main.py` line 16. -/
def COLUMN_KEY : String := "NAME OF FACILITY"

/-- All cells of a named column (`df[COLUMN_KEY].tolist()`); empty when
the column is absent (the source returns early in that case). -/
def colValuesByName (df : DataFrame) (cname : String) : List Value :=
  match colIdx df cname with
  | some i => colValues df i
  | none => []

/-- One response row matched some reference name (`main.py` lines 133-138:
the `break` only short-circuits; membership is unchanged by it). -/
def rowMatchesB (nameV : Value) (checks : List Value) (t : Int) : Bool :=
  checks.any (fun n => is_similar_name nameV n t)

/-- `removed_names` of `main.py` lines 126-138: the facility-name cell of
every response row that matched a reference name, in row order. -/
def removedNames (df : DataFrame) (i : Nat) (checks : List Value) (t : Int) :
    List Value :=
  ((df.rows.filter (fun r => rowMatchesB (getCell r i) checks t)).map
    (fun r => getCell r i))

/-- The dedup core of `remove_duplicates` (`main.py` lines 84-149, file
I/O, backups and console reporting elided): `none` models the early return
when `COLUMN_KEY` is missing from any of the three tables; otherwise the
kept table is `df_responses[~df_responses[COLUMN_KEY].isin(removed_names)]`
with reference names pooled from registry then surveillance. -/
def remove_duplicates (df_responses df_registry df_surveillance : DataFrame)
    (similarity_threshold : optParam Int 75) : Option DataFrame :=
  match colIdx df_responses COLUMN_KEY, colIdx df_registry COLUMN_KEY,
      colIdx df_surveillance COLUMN_KEY with
  | some i, some _, some _ =>
    let all_names_to_check :=
      colValuesByName df_registry COLUMN_KEY ++
        colValuesByName df_surveillance COLUMN_KEY
    let removed_names := removedNames df_responses i all_names_to_check
      similarity_threshold
    some ⟨df_responses.cols,
      df_responses.rows.filter (fun r => !(pyIsin (getCell r i) removed_names))⟩
  | _, _, _ => none

/-- The per-row meaning of one coercion-free condition, evaluated against
the table's original cells (used to state what "the combined boolean
expression holds on a row" means for the order-independence claim). -/
def condHolds (cols : List String) (c : FilterCondition) (r : List Value) : Bool :=
  match cols.findIdx? (fun x => x = c.column) with
  | none => false
  | some i =>
    if c.condition = "equals" then
      match c.value with
      | .fvScalar v => valEq (getCell r i) v
      | .fvList _ => false
    else if c.condition = "in" then
      match c.value with
      | .fvList vs => pyIsin (getCell r i) vs
      | .fvScalar _ => false
    else if c.condition = "greater_than" then
      match c.value with
      | .fvScalar v => gtB (getCell r i) v
      | .fvList _ => false
    else if c.condition = "less_than" then
      match c.value with
      | .fvScalar v => ltB (getCell r i) v
      | .fvList _ => false
    else false

/-- Per-row meaning of a top-level element: a bare condition, or OR over a
group's conditions. -/
def elemHolds (cols : List String) (e : FilterElem) (r : List Value) : Bool :=
  match e with
  | .cond c => condHolds cols c r
  | .group g => g.conditions.any (fun c => condHolds cols c r)

/-- A condition is pure on a table when it references an existing column,
uses a coercion-free kind with the right value shape, and (for the ordered
kinds) every cell of its column is type-compatible with the value, so that
its evaluation neither rewrites the table nor raises. -/
def condOkB (df : DataFrame) (c : FilterCondition) : Bool :=
  match colIdx df c.column with
  | none => false
  | some i =>
    if c.condition = "equals" then
      match c.value with
      | .fvScalar _ => true
      | .fvList _ => false
    else if c.condition = "in" then
      match c.value with
      | .fvList _ => true
      | .fvScalar _ => false
    else if c.condition = "greater_than" ∨ c.condition = "less_than" then
      match c.value with
      | .fvScalar v => (colValues df i).all (fun cv => valCompat cv v)
      | .fvList _ => false
    else false

/-- `condOkB` lifted to a top-level element. -/
def elemOkB (df : DataFrame) (e : FilterElem) : Bool :=
  match e with
  | .cond c => condOkB df c
  | .group g => g.conditions.all (fun c => condOkB df c)

/-! Helper lemmas (lists, folds, substrings). -/

/-- `List.all` is invariant under permutation. -/
theorem permAll {α : Type} {l1 l2 : List α} (h : l1.Perm l2) (p : α → Bool) :
    l1.all p = l2.all p := by
  induction h with
  | nil => rfl
  | cons x _ ih => simp [List.all_cons, ih]
  | swap x y l => simp only [List.all_cons]; rw [Bool.and_left_comm]
  | trans _ _ ih1 ih2 => rw [ih1, ih2]

/-- `List.all` respects pointwise-equal predicates. -/
theorem allCongr {α : Type} {l : List α} {p q : α → Bool}
    (h : ∀ x ∈ l, p x = q x) : l.all p = l.all q := by
  induction l with
  | nil => rfl
  | cons a as ih =>
    simp only [List.all_cons]
    rw [h a (List.mem_cons_self a as), ih (fun x hx => h x (List.mem_cons_of_mem a hx))]

/-- `all` over a mapped list tests the composite predicate. -/
theorem allMap {α β : Type} (l : List α) (f : α → β) (p : β → Bool) :
    (l.map f).all p = l.all (fun x => p (f x)) := by
  induction l with
  | nil => rfl
  | cons a as ih => simp only [List.map_cons, List.all_cons, ih]

/-- `any` over a mapped list tests the composite predicate. -/
theorem anyMap {α β : Type} (l : List α) (f : α → β) (p : β → Bool) :
    (l.map f).any p = l.any (fun x => p (f x)) := by
  induction l with
  | nil => rfl
  | cons a as ih => simp only [List.map_cons, List.any_cons, ih]

/-- A `max`-fold is invariant under permutation of the list. -/
theorem foldlMax_perm {l1 l2 : List Nat} (h : l1.Perm l2) :
    ∀ a : Nat, l1.foldl max a = l2.foldl max a := by
  induction h with
  | nil => intro a; rfl
  | cons x _ ih => intro a; simp only [List.foldl_cons]; exact ih _
  | swap x y l =>
    intro a
    simp only [List.foldl_cons]
    rw [max_assoc, max_comm y x, ← max_assoc]
  | trans _ _ ih1 ih2 => intro a; rw [ih1, ih2]

/-- The best score of a token is the same against permuted token lists. -/
theorem bestOf_perm (p : String) {l1 l2 : List String} (h : l1.Perm l2) :
    bestOf p l1 = bestOf p l2 := by
  unfold bestOf
  exact foldlMax_perm (h.map _) 0

/-- A threshold bounds a `min`-fold iff it bounds the seed and each item. -/
theorem foldlMin_le_iff (t : Int) (xs : List Nat) : ∀ a : Nat,
    (t ≤ ((xs.foldl min a : Nat) : Int)) ↔
      (t ≤ (a : Int) ∧ ∀ x ∈ xs, t ≤ (x : Int)) := by
  induction xs with
  | nil => intro a; simp
  | cons x xs ih =>
    intro a
    rw [List.foldl_cons, ih, Nat.cast_min, le_min_iff]
    simp only [List.mem_cons]
    constructor
    · rintro ⟨⟨ha, hx⟩, hxs⟩
      refine ⟨ha, fun y hy => ?_⟩
      rcases hy with rfl | hy
      · exact hx
      · exact hxs y hy
    · rintro ⟨ha, hall⟩
      exact ⟨⟨ha, hall x (Or.inl rfl)⟩, fun y hy => hall y (Or.inr hy)⟩

/-- The source's `len(best_matches) > 0 and min(best_matches) >= threshold`
decision equals "non-empty and every score clears the threshold". -/
theorem pyMin_threshold (t : Int) (l : List Nat) :
    minThresholdCheck t l =
    (!(decide (l = [])) && l.all (fun x => decide (t ≤ (x : Int)))) := by
  cases l with
  | nil => rfl
  | cons a as =>
    simp only [minThresholdCheck, pyMin]
    rw [Bool.eq_iff_iff]
    simp only [Bool.and_eq_true, Bool.not_eq_true', decide_eq_false_iff_not,
      decide_eq_true_eq, List.all_eq_true, foldlMin_le_iff, List.mem_cons]
    constructor
    · rintro ⟨ha, hall⟩
      refine ⟨by simp, fun x hx => ?_⟩
      rcases hx with rfl | hx
      · exact ha
      · exact hall x hx
    · rintro ⟨-, hall⟩
      exact ⟨hall a (Or.inl rfl), fun x hx => hall x (Or.inr hx)⟩

/-- A list starts with itself (then anything). -/
theorem takesStart_append (n post : List Char) : takesStart n (n ++ post) = true := by
  induction n with
  | nil => rfl
  | cons a as ih => simp [takesStart, ih]

/-- A list is a substring of itself followed by anything. -/
theorem hasSubstr_self (n post : List Char) : hasSubstr n (n ++ post) = true := by
  cases hnp : n ++ post with
  | nil =>
    have hn : n = [] := (List.append_eq_nil.mp hnp).1
    subst hn
    rfl
  | cons c rest =>
    show (takesStart n (c :: rest) || hasSubstr n rest) = true
    rw [← hnp, takesStart_append]
    rfl

/-- Any middle segment is a substring. -/
theorem hasSubstr_mid (pre n post : List Char) :
    hasSubstr n (pre ++ n ++ post) = true := by
  induction pre with
  | nil => simpa using hasSubstr_self n post
  | cons c cs ih =>
    simp only [List.cons_append]
    show (takesStart n (c :: (cs ++ n ++ post)) || hasSubstr n (cs ++ n ++ post)) = true
    rw [ih, Bool.or_true]

/-- **C3.** The spec says a `contains` condition gives `false` (without
erroring) on rows whose target cell is null/missing, and the source's
`na=False` argument shows the same intent; but line 59's `astype(str)`
turns a missing cell into the string `"nan"` first, so a null row's mask
entry is `true` whenever the condition value is a substring of `"nan"`:
here a one-row table with a missing cell matches `contains "a"`. -/
theorem C3_null_contains_true :
    apply_filter_condition ⟨["c"], [[Value.vNull]]⟩
      ⟨"c", .fvScalar (.vStr "a"), "contains", "%d/%m/%Y"⟩ =
    .ok ([true], ⟨["c"], [[Value.vStr "nan"]]⟩) := by decide

/-- **C5.** If the normalized token-set sizes of the two names differ by
more than 1, `is_similar_name` is `false` for every threshold (the
line 36 size guard). -/
theorem C5_size_guard (v1 v2 : Value) (t : Int)
    (h : 1 < (((nameTokens v1).length : Int) -
      ((nameTokens v2).length : Int)).natAbs) :
    is_similar_name v1 v2 t = false := by
  unfold is_similar_name
  cases hn : (isNullV v1 || isNullV v2) with
  | true => simp
  | false => simp [h]

/-- Witness for C5 at `"a b c"` versus `"a"` (sizes 3 and 1). -/
theorem C5_size_guard_witness :
    (1 < (((nameTokens (Value.vStr "a b c")).length : Int) -
      ((nameTokens (Value.vStr "a")).length : Int)).natAbs) ∧
    is_similar_name (Value.vStr "a b c") (Value.vStr "a") 77 = false :=
  ⟨by decide, C5_size_guard (Value.vStr "a b c") (Value.vStr "a") 77 (by decide)⟩

/-- **C8 (amended).** Referencing a missing column fails with the KeyError
of lines 106/114, whose message names the missing column (it occurs as a
substring); but the message is a fixed format string that never identifies
the table it was expected in.  Stated for a missing column at the head of
the expression (an earlier element may fail first with its own error). -/
theorem C8_missing_column :
    (∀ (df : DataFrame) (c : FilterCondition) (rest : List FilterElem),
      df.cols.contains c.column = false →
      filter_excel_data df (.cond c :: rest) = .error (colNotFoundMsg c.column)) ∧
    (∀ (df : DataFrame) (c : FilterCondition) (cs : List FilterCondition)
        (rest : List FilterElem),
      df.cols.contains c.column = false →
      filter_excel_data df (.group ⟨c :: cs⟩ :: rest) =
        .error (colNotFoundMsg c.column)) ∧
    (∀ cname : String,
      hasSubstr cname.toList (colNotFoundMsg cname).toList = true) := by
  refine ⟨?_, ?_, ?_⟩
  · intro df c rest h
    have h' : c.column ∉ df.cols := by simpa using h
    simp [filter_excel_data, h']
  · intro df c cs rest h
    have h' : c.column ∉ df.cols := by simpa using h
    simp [filter_excel_data, applyGroupConds, h']
  · intro cname
    have hsplit :
        (("Column " ++ pyQuote) ++ cname ++
          (pyQuote ++ " not found in the Excel file")).toList =
        ("Column " ++ pyQuote).toList ++ cname.toList ++
          (pyQuote ++ " not found in the Excel file").toList := rfl
    show hasSubstr cname.toList
      ((("Column " ++ pyQuote) ++ cname ++
        (pyQuote ++ " not found in the Excel file")).toList) = true
    rw [hsplit]
    exact hasSubstr_mid _ _ _

/-- Witness for C8 on a one-column table and a condition on `Area`. -/
theorem C8_missing_column_witness :
    filter_excel_data ⟨["Zone"], [[Value.vInt 1]]⟩
      [.cond ⟨"Area", .fvScalar (.vInt 0), "equals", "%d/%m/%Y"⟩] =
      .error (colNotFoundMsg "Area") :=
  C8_missing_column.1 ⟨["Zone"], [[Value.vInt 1]]⟩
    ⟨"Area", .fvScalar (.vInt 0), "equals", "%d/%m/%Y"⟩ [] (by decide)

/-- **C8 counterexample.** The missing-column error is byte-for-byte
identical for two different tables, so the message cannot name "the table
it was expected in", contradicting that part of the claim. -/
theorem C8_counterexample :
    filter_excel_data ⟨["a"], []⟩
      [.cond ⟨"missing", .fvScalar (.vInt 0), "equals", "%d/%m/%Y"⟩] =
      .error (colNotFoundMsg "missing") ∧
    filter_excel_data ⟨["b", "z"], [[Value.vInt 1, Value.vInt 2]]⟩
      [.cond ⟨"missing", .fvScalar (.vInt 0), "equals", "%d/%m/%Y"⟩] =
      .error (colNotFoundMsg "missing") ∧
    (⟨["a"], []⟩ : DataFrame) ≠ ⟨["b", "z"], [[Value.vInt 1, Value.vInt 2]]⟩ := by
  refine ⟨by decide, by decide, by decide⟩

/-- **C9 (amended).** A condition kind that is not one of the six non-date
kinds and does not start with `date_` reaches line 74: no error, no column
access, and an all-true mask over the table's rows. -/
theorem C9_unknown_kind (df : DataFrame) (c : FilterCondition)
    (h1 : takesStart "date_".toList c.condition.toList = false)
    (h2 : c.condition ∉
      ["equals", "contains", "starts_with", "in", "greater_than", "less_than"]) :
    apply_filter_condition df c = .ok (df.rows.map (fun _ => true), df) := by
  simp only [List.mem_cons, List.not_mem_nil, or_false] at h2
  push_neg at h2
  obtain ⟨e1, e2, e3, e4, e5, e6⟩ := h2
  have h1' : takesStart ['d', 'a', 't', 'e', '_'] c.condition.data = false := h1
  simp [apply_filter_condition, h1', e1, e2, e3, e4, e5, e6]

/-- Witness for C9 with the unrecognized kind `between`. -/
theorem C9_unknown_kind_witness :
    apply_filter_condition ⟨["c"], [[Value.vInt 1], [Value.vInt 2]]⟩
      ⟨"c", .fvScalar (.vInt 0), "between", "%d/%m/%Y"⟩ =
      .ok ([true, true],
        (⟨["c"], [[Value.vInt 1], [Value.vInt 2]]⟩ : DataFrame)) := by
  have h := C9_unknown_kind ⟨["c"], [[Value.vInt 1], [Value.vInt 2]]⟩
    ⟨"c", .fvScalar (.vInt 0), "between", "%d/%m/%Y"⟩ (by decide) (by decide)
  simpa using h

/-- **C9 counterexample.** `date_x` is none of the nine documented kinds,
yet `apply_filter_condition` raises (strict parse of the condition value
at line 46 runs before the unrecognized kind falls through), refuting
"raises no error" for arbitrary unrecognized kinds. -/
theorem C9_counterexample :
    (("date_x" : String) ∉
      ["equals", "contains", "starts_with", "in", "greater_than", "less_than",
        "date_equals", "date_greater", "date_less"]) ∧
    apply_filter_condition ⟨["c"], [[Value.vInt 1]]⟩
      ⟨"c", .fvScalar (.vStr "notadate"), "date_x", "%d/%m/%Y"⟩ =
      .error (dateParseMsg "notadate") := by
  refine ⟨by decide, by decide⟩

/-- **C2 (amended).** The fuzzy decision is symmetric whenever the two
names normalize to the same token set: the null guard and the size guard
are symmetric, and with equal token sets both directions aggregate the
same best scores.  (In general the aggregation of lines 40-47 only ranges
over the first name's tokens, and symmetry fails; see the
counterexample.) -/
theorem C2_token_set_symmetric (v1 v2 : Value) (t : Int)
    (h : (nameTokens v1).Perm (nameTokens v2)) :
    is_similar_name v1 v2 t = is_similar_name v2 v1 t := by
  unfold is_similar_name
  cases h1 : isNullV v1 <;> cases h2 : isNullV v2 <;>
    simp only [h1, h2, Bool.or_self, Bool.or_true, Bool.true_or, Bool.false_or,
      if_true, if_false]
  have hlen : (nameTokens v1).length = (nameTokens v2).length := h.length_eq
  rw [hlen, sub_self]
  simp only [Int.natAbs_zero]
  have hguard : ¬ ((1 : Nat) < 0) := by omega
  rw [if_neg hguard, if_neg hguard]
  rw [pyMin_threshold, pyMin_threshold]
  have hnil : (decide ((nameTokens v1).map (fun p1 => bestOf p1 (nameTokens v2)) = [])) =
      (decide ((nameTokens v2).map (fun p1 => bestOf p1 (nameTokens v1)) = [])) := by
    simp only [List.map_eq_nil_iff, decide_eq_decide]
    constructor
    · intro hx
      rw [hx] at h
      exact h.nil_eq.symm
    · intro hx
      rw [hx] at h
      exact h.eq_nil
  have hall : ((nameTokens v1).map (fun p1 => bestOf p1 (nameTokens v2))).all
        (fun x => decide (t ≤ (x : Int))) =
      ((nameTokens v2).map (fun p1 => bestOf p1 (nameTokens v1))).all
        (fun x => decide (t ≤ (x : Int))) := by
    rw [allMap, allMap]
    have step1 : (nameTokens v2).all
          (fun p1 => decide (t ≤ ((bestOf p1 (nameTokens v1) : Nat) : Int))) =
        (nameTokens v2).all
          (fun p1 => decide (t ≤ ((bestOf p1 (nameTokens v2) : Nat) : Int))) := by
      apply allCongr
      intro p hp
      rw [bestOf_perm p h]
    rw [step1]
    exact permAll h _
  rw [hnil, hall]

/-- Witness for C2 at the names `"a b"` and `"b a"` (equal token sets). -/
theorem C2_token_set_symmetric_witness :
    is_similar_name (Value.vStr "a b") (Value.vStr "b a") 80 =
      is_similar_name (Value.vStr "b a") (Value.vStr "a b") 80 :=
  C2_token_set_symmetric (Value.vStr "a b") (Value.vStr "b a") 80 (by decide)

/-- **C2 counterexample.** `is_similar_name` is not symmetric as claimed:
`"abc"` against `"abc xyz"` matches at threshold 80 (the single token
`abc` scores 100), but the reverse direction fails (`xyz` scores 0 against
`abc`), because lines 41-44 aggregate only over the first name's tokens. -/
theorem C2_counterexample :
    is_similar_name (Value.vStr "abc") (Value.vStr "abc xyz") 80 = true ∧
    is_similar_name (Value.vStr "abc xyz") (Value.vStr "abc") 80 = false := by
  refine ⟨by decide, by decide⟩

/-- **C4 (amended).** For non-null names, `is_similar_name` is true iff
the first name's token set is *non-empty*, the token-set sizes differ by
at most 1, and every token of the first set has best `fuzz.ratio` against
the second set at or above the threshold; the defaults are 80 at
`is_similar_name` and 75 at the `remove_duplicates` entry point.  (The
claim omitted the non-emptiness conjunct, which line 47's
`len(best_matches) > 0` imposes; see the counterexample.) -/
theorem C4_match_characterisation :
    (∀ (v1 v2 : Value) (t : Int), isNullV v1 = false → isNullV v2 = false →
      (is_similar_name v1 v2 t = true ↔
        (nameTokens v1 ≠ [] ∧
         (((nameTokens v1).length : Int) - ((nameTokens v2).length : Int)).natAbs ≤ 1 ∧
         ∀ p ∈ nameTokens v1, t ≤ ((bestOf p (nameTokens v2) : Nat) : Int)))) ∧
    (∀ a b : Value, is_similar_name a b = is_similar_name a b 80) ∧
    (∀ r g s : DataFrame, remove_duplicates r g s = remove_duplicates r g s 75) := by
  refine ⟨?_, fun a b => rfl, fun r g s => rfl⟩
  intro v1 v2 t h1 h2
  unfold is_similar_name
  simp only [h1, h2, Bool.or_self, if_false, Bool.false_eq_true]
  by_cases hg : 1 <
      (((nameTokens v1).length : Int) - ((nameTokens v2).length : Int)).natAbs
  · rw [if_pos hg]
    simp only [Bool.false_eq_true, false_iff]
    rintro ⟨-, hle, -⟩
    omega
  · rw [if_neg hg]
    rw [pyMin_threshold]
    simp only [Bool.and_eq_true, Bool.not_eq_true', decide_eq_false_iff_not,
      List.map_eq_nil_iff, List.all_eq_true, decide_eq_true_eq, List.mem_map,
      forall_exists_index, and_imp]
    constructor
    · rintro ⟨hne, hall⟩
      refine ⟨hne, by omega, fun p hp => ?_⟩
      exact hall (bestOf p (nameTokens v2)) p hp rfl
    · rintro ⟨hne, -, hall⟩
      refine ⟨hne, fun x p hp hx => ?_⟩
      rw [← hx]
      exact hall p hp

/-- Witness for C4 at `"ab"` versus `"ab"` at threshold 80. -/
theorem C4_match_characterisation_witness :
    is_similar_name (Value.vStr "ab") (Value.vStr "ab") 80 = true ↔
      (nameTokens (Value.vStr "ab") ≠ [] ∧
       (((nameTokens (Value.vStr "ab")).length : Int) -
         ((nameTokens (Value.vStr "ab")).length : Int)).natAbs ≤ 1 ∧
       ∀ p ∈ nameTokens (Value.vStr "ab"),
         (80 : Int) ≤ ((bestOf p (nameTokens (Value.vStr "ab")) : Nat) : Int)) :=
  C4_match_characterisation.1 (Value.vStr "ab") (Value.vStr "ab") 80
    (by decide) (by decide)

/-- **C4 counterexample.** At the non-null pair `("", "x")` the claimed
right-hand side holds (size difference 1, vacuous best-score condition
over the empty token set), yet `is_similar_name` returns `false`, because
line 47 additionally requires at least one collected score. -/
theorem C4_counterexample :
    is_similar_name (Value.vStr "") (Value.vStr "x") 80 = false ∧
    isNullV (Value.vStr "") = false ∧
    isNullV (Value.vStr "x") = false ∧
    (((nameTokens (Value.vStr "")).length : Int) -
      ((nameTokens (Value.vStr "x")).length : Int)).natAbs ≤ 1 ∧
    (∀ p ∈ nameTokens (Value.vStr ""),
      (80 : Int) ≤ ((bestOf p (nameTokens (Value.vStr "x")) : Nat) : Int)) := by
  refine ⟨by decide, by decide, by decide, by decide, by decide⟩

/-- `map` respects pointwise-equal functions. -/
theorem mapCongr {α β : Type} {l : List α} {f g : α → β}
    (h : ∀ x ∈ l, f x = g x) : l.map f = l.map g := by
  induction l with
  | nil => rfl
  | cons a as ih =>
    simp only [List.map_cons]
    rw [h a (List.mem_cons_self a as), ih (fun x hx => h x (List.mem_cons_of_mem a hx))]

/-- Reading back a coerced cell: column coercion by a missing-preserving
`f` rewrites the cell to `f` of the old cell (rows shorter than the index
read `NaN` on both sides). -/
theorem getCell_setCell (r : List Value) (f : Value → Value)
    (hf : f Value.vNull = Value.vNull) :
    ∀ i : Nat, getCell (setCellF r i f) i = f (getCell r i) := by
  induction r with
  | nil => intro i; simp [setCellF, getCell, hf]
  | cons a as ih =>
    intro i
    cases i with
    | zero => simp [setCellF, getCell]
    | succ n =>
      have := ih n
      simp only [setCellF, getCell, List.getD_cons_succ, List.set_cons_succ] at *
      exact this

/-- Column coercion by a missing-preserving function maps the column. -/
theorem colValues_mapCol (df : DataFrame) (i : Nat) (f : Value → Value)
    (hf : f Value.vNull = Value.vNull) :
    colValues (mapCol df i f) i = (colValues df i).map f := by
  unfold colValues mapCol
  simp only [List.map_map]
  apply mapCongr
  intro r _
  exact getCell_setCell r f hf i

/-- Mask entry read-back for a date condition: a cell whose coercion is
the null sentinel gets mask entry `false` (for any per-cell date test `g`
that rejects the sentinel). -/
theorem dateMask_get (df : DataFrame) (i : Nat) (fmt : String) (g : Value → Bool)
    (hg : g Value.vNull = false) :
    ∀ j v, (colValues df i).get? j = some v →
      toDateCell fmt v = Value.vNull →
      ((colValues (mapCol df i (toDateCell fmt)) i).map g).get? j = some false := by
  intro j v hj hnull
  rw [colValues_mapCol df i _ rfl, List.map_map, List.get?_map, hj]
  simp [hnull, hg]

/-- **C6.** For the three date kinds, once the condition value itself
converts to a date, the condition evaluates without error, and every row
whose cell coerces to the null date sentinel (`errors="coerce"` at line
42) gets mask entry `false`: `NaT` matches no date condition. -/
theorem C6_null_date_never_matches (df : DataFrame) (c : FilterCondition) (i : Nat)
    (hk : c.condition = "date_equals" ∨ c.condition = "date_greater" ∨
      c.condition = "date_less")
    (hi : colIdx df c.column = some i)
    (hv : ∃ fd, dateFilterValue c.date_format c.value = .ok (some fd)) :
    ∃ m df2, apply_filter_condition df c = .ok (m, df2) ∧
      ∀ j v, (colValues df i).get? j = some v →
        toDateCell c.date_format v = Value.vNull →
        m.get? j = some false := by
  obtain ⟨fd, hfd⟩ := hv
  rcases hk with hc | hc | hc
  · refine ⟨(colValues (mapCol df i (toDateCell c.date_format)) i).map
      (fun v => dateMaskEq v fd), mapCol df i (toDateCell c.date_format), ?_, ?_⟩
    · simp +decide [apply_filter_condition, hc, hi, hfd, dateCondMask]
    · exact dateMask_get df i c.date_format _ rfl
  · refine ⟨(colValues (mapCol df i (toDateCell c.date_format)) i).map
      (fun v => dateMaskGt v fd), mapCol df i (toDateCell c.date_format), ?_, ?_⟩
    · simp +decide [apply_filter_condition, hc, hi, hfd, dateCondMask]
    · exact dateMask_get df i c.date_format _ rfl
  · refine ⟨(colValues (mapCol df i (toDateCell c.date_format)) i).map
      (fun v => dateMaskLt v fd), mapCol df i (toDateCell c.date_format), ?_, ?_⟩
    · simp +decide [apply_filter_condition, hc, hi, hfd, dateCondMask]
    · exact dateMask_get df i c.date_format _ rfl

/-- Witness for C6: a `date_equals` condition over a column holding an
unparseable string; the single row's mask entry is `false`. -/
theorem C6_null_date_never_matches_witness :
    ∃ m df2,
      apply_filter_condition ⟨["d"], [[Value.vStr "bad"]]⟩
        ⟨"d", .fvScalar (.vStr "05/02/2025"), "date_equals", "%d/%m/%Y"⟩ =
        .ok (m, df2) ∧
      ∀ j v,
        (colValues ⟨["d"], [[Value.vStr "bad"]]⟩ 0).get? j = some v →
        toDateCell "%d/%m/%Y" v = Value.vNull →
        m.get? j = some false :=
  C6_null_date_never_matches ⟨["d"], [[Value.vStr "bad"]]⟩
    ⟨"d", .fvScalar (.vStr "05/02/2025"), "date_equals", "%d/%m/%Y"⟩ 0
    (Or.inl rfl) (by decide) ⟨⟨2025, 2, 5⟩, by decide⟩

/-- Filtering by an all-false mask built over the same list yields nothing. -/
theorem filterZipFalse {α : Type} (l : List α) :
    ((l.zip (l.map (fun _ => false))).filter (fun p => p.2)).map
      (fun p => p.1) = ([] : List α) := by
  induction l with
  | nil => rfl
  | cons a as ih => simpa using ih

/-- `df[all-false mask]` keeps no rows. -/
theorem filterRows_mapFalse (df : DataFrame) :
    filterRows df (df.rows.map (fun _ => false)) = ⟨df.cols, []⟩ := by
  unfold filterRows
  rw [filterZipFalse]

/-- `df[mask]` on a rowless table stays rowless. -/
theorem filterRows_nil (df : DataFrame) (m : List Bool) (h : df.rows = []) :
    (filterRows df m).rows = [] := by
  simp [filterRows, h]

/-- A single condition evaluated on a rowless table leaves it rowless
(the only table rewrite, column coercion, maps the rows). -/
theorem apply_empty_rows (df : DataFrame) (c : FilterCondition) (m : List Bool)
    (df2 : DataFrame) (h : apply_filter_condition df c = .ok (m, df2))
    (hrows : df.rows = []) : df2.rows = [] := by
  unfold apply_filter_condition at h
  repeat' split at h
  all_goals simp_all [mapCol]
  all_goals try (obtain ⟨-, rfl⟩ := h; rfl)
  all_goals (unfold dateCondMask at h; repeat' split at h)
  all_goals simp_all
  all_goals (obtain ⟨-, rfl⟩ := h; rfl)

/-- A group fold on a rowless table keeps it rowless. -/
theorem groupConds_empty_rows (conds : List FilterCondition) :
    ∀ (df : DataFrame) (acc gm : List Bool) (df2 : DataFrame),
      df.rows = [] → applyGroupConds df conds acc = .ok (gm, df2) →
      df2.rows = [] := by
  induction conds with
  | nil =>
    intro df acc gm df2 hrows h
    simp only [applyGroupConds] at h
    obtain ⟨-, rfl⟩ := by simpa using h
    exact hrows
  | cons c cs ih =>
    intro df acc gm df2 hrows h
    simp only [applyGroupConds] at h
    split at h
    · split at h
      · cases h
      · rename_i m0 dfmid heq
        exact ih dfmid _ gm df2 (apply_empty_rows df c m0 dfmid heq hrows) h
    · cases h

/-- A filter pipeline run on a rowless table returns a rowless table. -/
theorem filter_empty_rows (gs : List FilterElem) :
    ∀ (df d : DataFrame), df.rows = [] →
      filter_excel_data df gs = .ok d → d.rows = [] := by
  induction gs with
  | nil =>
    intro df d hrows h
    simp only [filter_excel_data] at h
    obtain rfl := by simpa using h
    exact hrows
  | cons e es ih =>
    intro df d hrows h
    cases e with
    | cond c =>
      simp only [filter_excel_data] at h
      split at h
      · split at h
        · cases h
        · rename_i m0 dfmid heq
          exact ih _ d (filterRows_nil dfmid m0
            (apply_empty_rows df c m0 dfmid heq hrows)) h
      · cases h
    | group g =>
      simp only [filter_excel_data] at h
      split at h
      · cases h
      · rename_i gm dfmid heq
        exact ih _ d (filterRows_nil dfmid gm
          (groupConds_empty_rows g.conditions df _ gm dfmid hrows heq)) h

/-- **C7.** Processing an empty `FilterGroup` always succeeds and leaves
zero rows (the OR fold of lines 111-116 starts from all-false and has
nothing to OR in), and any filter expression containing an empty group
yields zero rows whenever it returns at all. -/
theorem C7_empty_group :
    (∀ df : DataFrame,
      filter_excel_data df [.group ⟨[]⟩] = .ok ⟨df.cols, []⟩) ∧
    (∀ (df : DataFrame) (xs ys : List FilterElem) (d : DataFrame),
      filter_excel_data df (xs ++ .group ⟨[]⟩ :: ys) = .ok d →
      d.rows = []) := by
  constructor
  · intro df
    show (match applyGroupConds df [] (df.rows.map (fun _ => false)) with
      | .error e => Except.error e
      | .ok (gm, df2) => filter_excel_data (filterRows df2 gm) []) =
      .ok ⟨df.cols, []⟩
    simp only [applyGroupConds]
    rw [filterRows_mapFalse]
    rfl
  · intro df xs ys d
    revert df d
    induction xs with
    | nil =>
      intro df d h
      simp only [List.nil_append] at h
      have h' : (match applyGroupConds df [] (df.rows.map (fun _ => false)) with
        | .error e => Except.error e
        | .ok (gm, df2) => filter_excel_data (filterRows df2 gm) ys) = .ok d := h
      simp only [applyGroupConds] at h'
      rw [filterRows_mapFalse] at h'
      exact filter_empty_rows ys ⟨df.cols, []⟩ d rfl h'
    | cons e es ih =>
      intro df d h
      cases e with
      | cond c =>
        simp only [List.cons_append, filter_excel_data] at h
        split at h
        · split at h
          · cases h
          · exact ih _ d h
        · cases h
      | group g =>
        simp only [List.cons_append, filter_excel_data] at h
        split at h
        · cases h
        · exact ih _ d h

/-- Witness for C7: a one-row table filtered by an empty group. -/
theorem C7_empty_group_witness :
    ((⟨["z"], ([] : List (List Value))⟩ : DataFrame)).rows = [] :=
  C7_empty_group.2 ⟨["z"], [[Value.vInt 3]]⟩ [] []
    ⟨["z"], ([] : List (List Value))⟩ (by decide)

/-- `any` over a filtered list tests the conjunction. -/
theorem anyFilter {α : Type} (l : List α) (q p : α → Bool) :
    (l.filter q).any p = l.any (fun x => q x && p x) := by
  induction l with
  | nil => rfl
  | cons a as ih =>
    simp only [List.filter_cons]
    cases hq : q a <;> simp [List.any_cons, hq, ih]

/-- **C10.** The kept table of `remove_duplicates` is computed by
name-string membership (`~isin(removed_names)` at line 149), not by
per-row matching: a primary row survives iff no primary row with an
`isin`-equal facility-name cell matched a reference name; consequently
rows with identical name cells are always classified identically. -/
theorem C10_dedup_by_name (resp reg surv : DataFrame) (t : Int) (out : DataFrame)
    (i : Nat) (hout : remove_duplicates resp reg surv t = some out)
    (hi : colIdx resp COLUMN_KEY = some i) :
    (∀ r, r ∈ out.rows ↔
      (r ∈ resp.rows ∧
        ∀ r2 ∈ resp.rows,
          rowMatchesB (getCell r2 i)
            (colValuesByName reg COLUMN_KEY ++
              colValuesByName surv COLUMN_KEY) t = true →
          valEqNaN (getCell r i) (getCell r2 i) = false)) ∧
    (∀ r1 r2, r1 ∈ resp.rows → r2 ∈ resp.rows →
      getCell r1 i = getCell r2 i → (r1 ∈ out.rows ↔ r2 ∈ out.rows)) := by
  unfold remove_duplicates at hout
  rw [hi] at hout
  cases hreg : colIdx reg COLUMN_KEY with
  | none =>
    rw [hreg] at hout
    exact absurd hout (by simp)
  | some jr =>
  rw [hreg] at hout
  cases hsurv : colIdx surv COLUMN_KEY with
  | none =>
    rw [hsurv] at hout
    exact absurd hout (by simp)
  | some js =>
    rw [hsurv] at hout
    have hout2 : out = ⟨resp.cols, resp.rows.filter (fun r =>
        !(pyIsin (getCell r i)
          (removedNames resp i
            (colValuesByName reg COLUMN_KEY ++
              colValuesByName surv COLUMN_KEY) t)))⟩ :=
      (Option.some.inj hout).symm
    have keep_iff : ∀ r, (!(pyIsin (getCell r i)
        (removedNames resp i
          (colValuesByName reg COLUMN_KEY ++
            colValuesByName surv COLUMN_KEY) t))) = true ↔
        (∀ r2 ∈ resp.rows,
          rowMatchesB (getCell r2 i)
            (colValuesByName reg COLUMN_KEY ++
              colValuesByName surv COLUMN_KEY) t = true →
          valEqNaN (getCell r i) (getCell r2 i) = false) := by
      intro r
      unfold pyIsin removedNames
      rw [anyMap, anyFilter]
      simp only [Bool.not_eq_true']
      constructor
      · intro hfalse r2 hr2 hmatch
        have := List.any_eq_true.not.mp (by rw [hfalse]; simp)
        push_neg at this
        have h2 := this r2 hr2
        rw [hmatch] at h2
        simpa using h2
      · intro hall
        cases hany : resp.rows.any (fun x =>
            rowMatchesB (getCell x i) _ t && valEqNaN (getCell r i) (getCell x i)) with
        | false => rfl
        | true =>
          obtain ⟨x, hx, hpx⟩ := List.any_eq_true.mp hany
          rw [Bool.and_eq_true] at hpx
          have := hall x hx hpx.1
          rw [this] at hpx
          exact absurd hpx.2 (by simp)
    constructor
    · intro r
      rw [hout2]
      simp only [List.mem_filter]
      rw [keep_iff r]
    · intro r1 r2 h1 h2 hname
      rw [hout2]
      have hpred : (!(pyIsin (getCell r1 i)
          (removedNames resp i
            (colValuesByName reg COLUMN_KEY ++
              colValuesByName surv COLUMN_KEY) t))) =
          (!(pyIsin (getCell r2 i)
          (removedNames resp i
            (colValuesByName reg COLUMN_KEY ++
              colValuesByName surv COLUMN_KEY) t))) := by
        rw [hname]
      simp only [List.mem_filter, h1, h2, hpred, true_and]

/-- `filter` respects pointwise-equal predicates. -/
theorem filterCongr {α : Type} {l : List α} {p q : α → Bool}
    (h : ∀ x ∈ l, p x = q x) : l.filter p = l.filter q := by
  induction l with
  | nil => rfl
  | cons a as ih =>
    simp only [List.filter_cons]
    rw [h a (List.mem_cons_self a as), ih (fun x hx => h x (List.mem_cons_of_mem a hx))]

/-- Masking a list with a pointwise predicate over itself is `filter`. -/
theorem zipMapFilter {α : Type} (l : List α) (p : α → Bool) :
    ((l.zip (l.map p)).filter (fun x => x.2)).map (fun x => x.1) = l.filter p := by
  induction l with
  | nil => rfl
  | cons a as ih =>
    simp only [List.map_cons, List.zip_cons_cons, List.filter_cons]
    cases hp : p a <;> simp [hp, ih]

/-- `df[mask]` with a mask computed rowwise is a row filter. -/
theorem filterRows_map (df : DataFrame) (p : List Value → Bool) :
    filterRows df (df.rows.map p) = ⟨df.cols, df.rows.filter p⟩ := by
  unfold filterRows
  rw [zipMapFilter]

/-- A non-raising elementwise comparison computes the pure mask. -/
theorem mapExceptB_ok {f : Value → Except String Bool} {g : Value → Bool}
    (l : List Value) (h : ∀ v ∈ l, f v = .ok (g v)) :
    mapExceptB f l = .ok (l.map g) := by
  induction l with
  | nil => rfl
  | cons a as ih =>
    rw [mapExceptB, h a (List.mem_cons_self a as),
      ih (fun v hv => h v (List.mem_cons_of_mem a hv))]
    rfl

/-- A resolvable column index means the header contains the column. -/
theorem contains_of_colIdx (df : DataFrame) (cname : String) (i : Nat)
    (h : colIdx df cname = some i) : df.cols.contains cname = true := by
  have hne : df.cols.findIdx? (fun x => x = cname) ≠ none := by
    intro hn
    unfold colIdx at h
    rw [hn] at h
    cases h
  rw [Ne, List.findIdx?_eq_none_iff] at hne
  push_neg at hne
  obtain ⟨x, hx, hpx⟩ := hne
  have hxc : x = cname := by simpa using hpx
  subst hxc
  simpa using hx

/-- Pure conditions evaluate without error, without rewriting the table,
to the rowwise mask `condHolds`. -/
theorem apply_pure (df : DataFrame) (c : FilterCondition)
    (h : condOkB df c = true) :
    apply_filter_condition df c =
      .ok (df.rows.map (fun r => condHolds df.cols c r), df) := by
  unfold condOkB at h
  cases hidx : colIdx df c.column with
  | none => rw [hidx] at h; cases h
  | some i =>
    rw [hidx] at h
    replace h : (if c.condition = "equals" then
        match c.value with
        | FilterValue.fvScalar _ => true
        | FilterValue.fvList _ => false
      else if c.condition = "in" then
        match c.value with
        | FilterValue.fvList _ => true
        | FilterValue.fvScalar _ => false
      else if c.condition = "greater_than" ∨ c.condition = "less_than" then
        match c.value with
        | FilterValue.fvScalar v => (colValues df i).all fun cv => valCompat cv v
        | FilterValue.fvList _ => false
      else false) = true := h
    have hidx' : df.cols.findIdx? (fun x => x = c.column) = some i := hidx
    by_cases he : c.condition = "equals"
    · rw [if_pos he] at h
      cases hv : c.value with
      | fvScalar v =>
        simp +decide [apply_filter_condition, he, hidx, hv, condHolds, hidx',
          colValues, List.map_map, Function.comp]
      | fvList vs => rw [hv] at h; simp at h
    · rw [if_neg he] at h
      by_cases hin : c.condition = "in"
      · rw [if_pos hin] at h
        cases hv : c.value with
        | fvList vs =>
          simp +decide [apply_filter_condition, hin, hidx, hv, condHolds, hidx',
            colValues, List.map_map, Function.comp, he]
        | fvScalar v => rw [hv] at h; simp at h
      · rw [if_neg hin] at h
        by_cases hgl : c.condition = "greater_than" ∨ c.condition = "less_than"
        · rw [if_pos hgl] at h
          cases hv : c.value with
          | fvList vs => rw [hv] at h; simp at h
          | fvScalar v =>
            rw [hv] at h
            replace h : (colValues df i).all (fun cv => valCompat cv v) = true := h
            have hcompat := List.all_eq_true.mp h
            rcases hgl with hg | hl
            · have hmap : mapExceptB (fun cv => valGtB cv v) (colValues df i) =
                  .ok ((colValues df i).map (fun cv => gtB cv v)) := by
                apply mapExceptB_ok
                intro w hw
                have hc := hcompat w hw
                simp only [valGtB]
                rw [if_pos (by simpa using hc)]
              have hmask : (colValues df i).map (fun cv => gtB cv v) =
                  df.rows.map (fun r => gtB (getCell r i) v) := by
                simp [colValues, List.map_map, Function.comp]
              rw [hmask] at hmap
              simp +decide [apply_filter_condition, hg, hidx, hv, hmap,
                condHolds, hidx', he, hin]
            · have hmap : mapExceptB (fun cv => valLtB cv v) (colValues df i) =
                  .ok ((colValues df i).map (fun cv => ltB cv v)) := by
                apply mapExceptB_ok
                intro w hw
                have hc := hcompat w hw
                simp only [valLtB]
                rw [if_pos (by simpa using hc)]
              have hmask : (colValues df i).map (fun cv => ltB cv v) =
                  df.rows.map (fun r => ltB (getCell r i) v) := by
                simp [colValues, List.map_map, Function.comp]
              rw [hmask] at hmap
              simp +decide [apply_filter_condition, hl, hidx, hv, hmap,
                condHolds, hidx', he, hin]
        · rw [if_neg hgl] at h
          simp at h

/-- Purity of a condition survives row filtering (the compatibility side
condition only shrinks). -/
theorem condOkB_filter (df : DataFrame) (p : List Value → Bool) (c : FilterCondition)
    (h : condOkB df c = true) :
    condOkB ⟨df.cols, df.rows.filter p⟩ c = true := by
  unfold condOkB at h ⊢
  cases hx : colIdx df c.column with
  | none => rw [hx] at h; cases h
  | some i =>
    rw [hx] at h
    replace h : (if c.condition = "equals" then
        (match c.value with
         | FilterValue.fvScalar _ => true
         | FilterValue.fvList _ => false)
      else if c.condition = "in" then
        (match c.value with
         | FilterValue.fvList _ => true
         | FilterValue.fvScalar _ => false)
      else if c.condition = "greater_than" ∨ c.condition = "less_than" then
        (match c.value with
         | FilterValue.fvScalar v => (colValues df i).all fun cv => valCompat cv v
         | FilterValue.fvList _ => false)
      else false) = true := h
    have hx2 : colIdx (⟨df.cols, df.rows.filter p⟩ : DataFrame) c.column = some i := hx
    rw [hx2]
    show (if c.condition = "equals" then
        (match c.value with
         | FilterValue.fvScalar _ => true
         | FilterValue.fvList _ => false)
      else if c.condition = "in" then
        (match c.value with
         | FilterValue.fvList _ => true
         | FilterValue.fvScalar _ => false)
      else if c.condition = "greater_than" ∨ c.condition = "less_than" then
        (match c.value with
         | FilterValue.fvScalar v =>
            (colValues ⟨df.cols, df.rows.filter p⟩ i).all fun cv => valCompat cv v
         | FilterValue.fvList _ => false)
      else false) = true
    by_cases he : c.condition = "equals"
    · rw [if_pos he] at h ⊢
      exact h
    · rw [if_neg he] at h ⊢
      by_cases hin : c.condition = "in"
      · rw [if_pos hin] at h ⊢
        exact h
      · rw [if_neg hin] at h ⊢
        by_cases hgl : c.condition = "greater_than" ∨ c.condition = "less_than"
        · rw [if_pos hgl] at h ⊢
          cases hv : c.value with
          | fvList vs => rw [hv] at h; simp at h
          | fvScalar v =>
            rw [hv] at h
            replace h : (colValues df i).all (fun cv => valCompat cv v) = true := h
            show (colValues (⟨df.cols, df.rows.filter p⟩ : DataFrame) i).all
              (fun cv => valCompat cv v) = true
            apply List.all_eq_true.mpr
            intro w hw
            have hmem : w ∈ colValues df i := by
              simp only [colValues] at hw ⊢
              obtain ⟨r, hr, rfl⟩ := List.mem_map.mp hw
              exact List.mem_map_of_mem _ (List.mem_filter.mp hr).1
            exact List.all_eq_true.mp h w hmem
        · rw [if_neg hgl] at h
          simp at h

/-- `condOkB_filter` lifted to a top-level element. -/
theorem elemOkB_filter (df : DataFrame) (p : List Value → Bool) (e : FilterElem)
    (h : elemOkB df e = true) : elemOkB ⟨df.cols, df.rows.filter p⟩ e = true := by
  cases e with
  | cond c => exact condOkB_filter df p c h
  | group g =>
    simp only [elemOkB, List.all_eq_true] at h ⊢
    intro c hc
    exact condOkB_filter df p c (h c hc)

/-- OR of two rowwise masks over the same rows is the rowwise OR. -/
theorem orMask_map {α : Type} (l : List α) (f g : α → Bool) :
    orMask (l.map f) (l.map g) = l.map (fun x => f x || g x) := by
  induction l with
  | nil => rfl
  | cons a as ih =>
    simp only [List.map_cons, orMask, List.zipWith_cons_cons] at *
    rw [ih]

/-- A group of pure conditions folds (without error or table rewrite) to
the OR of the accumulator with the disjunction of its members. -/
theorem groupConds_pure (conds : List FilterCondition) :
    ∀ (df : DataFrame) (f : List Value → Bool),
      conds.all (fun c => condOkB df c) = true →
      applyGroupConds df conds (df.rows.map f) =
        .ok (df.rows.map
          (fun r => f r || conds.any (fun c => condHolds df.cols c r)), df) := by
  induction conds with
  | nil =>
    intro df f _
    simp [applyGroupConds]
  | cons c cs ih =>
    intro df f h
    rw [List.all_cons, Bool.and_eq_true] at h
    obtain ⟨hc, hcs⟩ := h
    have hidx : ∃ i, colIdx df c.column = some i := by
      unfold condOkB at hc
      cases hx : colIdx df c.column with
      | none => rw [hx] at hc; cases hc
      | some i => exact ⟨i, rfl⟩
    obtain ⟨i, hi⟩ := hidx
    have hcont := contains_of_colIdx df c.column i hi
    have happly := apply_pure df c hc
    simp only [applyGroupConds, hcont, if_true, happly]
    rw [orMask_map, ih df _ hcs]
    simp [List.any_cons, Bool.or_assoc]

/-- Exactness of `filter_excel_data` on pure filter expressions: the
result keeps exactly the rows on which the combined boolean expression
holds (AND over top-level elements, OR inside groups). -/
theorem filterPureAux (gs : List FilterElem) :
    ∀ df : DataFrame, gs.all (fun e => elemOkB df e) = true →
      filter_excel_data df gs =
        .ok ⟨df.cols,
          df.rows.filter (fun r => gs.all (fun e => elemHolds df.cols e r))⟩ := by
  induction gs with
  | nil =>
    intro df _
    simp [filter_excel_data]
  | cons e es ih =>
    intro df h
    rw [List.all_cons, Bool.and_eq_true] at h
    obtain ⟨he, hes⟩ := h
    have hes' : ∀ (p : List Value → Bool),
        es.all (fun x => elemOkB ⟨df.cols, df.rows.filter p⟩ x) = true := by
      intro p
      apply List.all_eq_true.mpr
      intro x hx
      exact elemOkB_filter df p x (List.all_eq_true.mp hes x hx)
    cases e with
    | cond c =>
      have hcOk : condOkB df c = true := he
      have hidx : ∃ i, colIdx df c.column = some i := by
        unfold condOkB at hcOk
        cases hx : colIdx df c.column with
        | none => rw [hx] at hcOk; cases hcOk
        | some i => exact ⟨i, rfl⟩
      obtain ⟨i, hi⟩ := hidx
      have hcont := contains_of_colIdx df c.column i hi
      have happly := apply_pure df c hcOk
      simp only [filter_excel_data, hcont, if_true, happly]
      rw [filterRows_map, ih _ (hes' _), List.filter_filter]
      simp [elemHolds, List.all_cons, Bool.and_comm]
    | group g =>
      have hgOk : g.conditions.all (fun c => condOkB df c) = true := he
      have hgp := groupConds_pure g.conditions df (fun _ => false) hgOk
      simp only [filter_excel_data, hgp]
      rw [filterRows_map, ih _ (hes' _), List.filter_filter]
      simp [elemHolds, List.all_cons, Bool.and_comm]

/-- **C1 (amended).** For filter expressions built from coercion-free,
non-raising conditions (`equals` with a scalar, `in` with a list,
`greater_than`/`less_than` with a column-compatible scalar, all on
existing columns — `elemOkB`), `filter_excel_data` returns exactly the
rows on which the combined boolean expression holds (AND across top-level
elements, OR across a group's conditions), and the result is invariant
under permutation of the top-level list.  (For expressions containing
column-coercing kinds — `contains`, `starts_with`, the date kinds — the
in-place coercion of lines 42/59 can change what later conditions see, so
the result can depend on list order; see the counterexample.) -/
theorem C1_pure_filter_exact_and_commutative (df : DataFrame)
    (gs : List FilterElem) (h : gs.all (fun e => elemOkB df e) = true) :
    filter_excel_data df gs =
      .ok ⟨df.cols,
        df.rows.filter (fun r => gs.all (fun e => elemHolds df.cols e r))⟩ ∧
    ∀ gs' : List FilterElem, gs.Perm gs' →
      filter_excel_data df gs' = filter_excel_data df gs := by
  refine ⟨filterPureAux gs df h, ?_⟩
  intro gs' hperm
  have h' : gs'.all (fun e => elemOkB df e) = true := by
    rw [← permAll hperm]
    exact h
  rw [filterPureAux gs df h, filterPureAux gs' df h']
  have hfilt : df.rows.filter (fun r => gs'.all (fun e => elemHolds df.cols e r)) =
      df.rows.filter (fun r => gs.all (fun e => elemHolds df.cols e r)) := by
    apply filterCongr
    intro r _
    exact (permAll hperm (fun e => elemHolds df.cols e r)).symm
  rw [hfilt]

/-- Witness for C1: an `equals` condition AND a one-condition `in` group
over a two-row table, in both orders. -/
theorem C1_pure_filter_witness :
    filter_excel_data ⟨["a"], [[Value.vInt 1], [Value.vInt 2]]⟩
        [.cond ⟨"a", .fvScalar (.vInt 1), "equals", "%d/%m/%Y"⟩,
         .group ⟨[⟨"a", .fvList [.vInt 1, .vInt 3], "in", "%d/%m/%Y"⟩]⟩] =
      .ok ⟨["a"], ([[Value.vInt 1], [Value.vInt 2]] : List (List Value)).filter
        (fun r =>
          ([.cond ⟨"a", .fvScalar (.vInt 1), "equals", "%d/%m/%Y"⟩,
            .group ⟨[⟨"a", .fvList [.vInt 1, .vInt 3], "in", "%d/%m/%Y"⟩]⟩] :
              List FilterElem).all
            (fun e => elemHolds ["a"] e r))⟩ ∧
    filter_excel_data ⟨["a"], [[Value.vInt 1], [Value.vInt 2]]⟩
        [.group ⟨[⟨"a", .fvList [.vInt 1, .vInt 3], "in", "%d/%m/%Y"⟩]⟩,
         .cond ⟨"a", .fvScalar (.vInt 1), "equals", "%d/%m/%Y"⟩] =
      filter_excel_data ⟨["a"], [[Value.vInt 1], [Value.vInt 2]]⟩
        [.cond ⟨"a", .fvScalar (.vInt 1), "equals", "%d/%m/%Y"⟩,
         .group ⟨[⟨"a", .fvList [.vInt 1, .vInt 3], "in", "%d/%m/%Y"⟩]⟩] := by
  have h := C1_pure_filter_exact_and_commutative
    ⟨["a"], [[Value.vInt 1], [Value.vInt 2]]⟩
    [.cond ⟨"a", .fvScalar (.vInt 1), "equals", "%d/%m/%Y"⟩,
     .group ⟨[⟨"a", .fvList [.vInt 1, .vInt 3], "in", "%d/%m/%Y"⟩]⟩]
    (by decide)
  exact ⟨h.1, h.2 _ (by decide)⟩

/-- **C1 counterexample.** With the table holding the single numeric cell
`6`, the conditions `contains "6"` and `equals 6` each hold on the row
under the spec's reading (the stringified cell contains `"6"`, and the
cell equals `6`), yet the order `[contains, equals]` returns no rows while
`[equals, contains]` keeps the row: the `astype(str)` coercion of line 59
rewrites the column in place, so the result is not order-independent and
does not contain exactly the rows satisfying the combined expression. -/
theorem C1_order_dependence_counterexample :
    containsMask (toStrCell (Value.vInt 6)) (.fvScalar (.vStr "6")) = true ∧
    valEq (Value.vInt 6) (Value.vInt 6) = true ∧
    filter_excel_data ⟨["c"], [[Value.vInt 6]]⟩
        [.cond ⟨"c", .fvScalar (.vStr "6"), "contains", "%d/%m/%Y"⟩,
         .cond ⟨"c", .fvScalar (.vInt 6), "equals", "%d/%m/%Y"⟩] =
      .ok ⟨["c"], []⟩ ∧
    filter_excel_data ⟨["c"], [[Value.vInt 6]]⟩
        [.cond ⟨"c", .fvScalar (.vInt 6), "equals", "%d/%m/%Y"⟩,
         .cond ⟨"c", .fvScalar (.vStr "6"), "contains", "%d/%m/%Y"⟩] =
      .ok ⟨["c"], [[Value.vStr "6"]]⟩ := by
  refine ⟨by decide, by decide, by decide, by decide⟩

/-- Witness for C10: `"ab cd"` matches the registry name `"AB cd "` and is
removed; the row `"zz"` is kept, characterised by name membership. -/
theorem C10_dedup_by_name_witness :
    [Value.vStr "zz"] ∈
        (⟨[COLUMN_KEY], [[Value.vStr "zz"]]⟩ : DataFrame).rows ↔
      ([Value.vStr "zz"] ∈
        (⟨[COLUMN_KEY], [[Value.vStr "ab cd"], [Value.vStr "zz"]]⟩ : DataFrame).rows ∧
       ∀ r2 ∈ (⟨[COLUMN_KEY],
           [[Value.vStr "ab cd"], [Value.vStr "zz"]]⟩ : DataFrame).rows,
         rowMatchesB (getCell r2 0)
           (colValuesByName ⟨[COLUMN_KEY], [[Value.vStr "AB cd "]]⟩ COLUMN_KEY ++
             colValuesByName ⟨[COLUMN_KEY], ([] : List (List Value))⟩ COLUMN_KEY)
           75 = true →
         valEqNaN (getCell [Value.vStr "zz"] 0) (getCell r2 0) = false) :=
  (C10_dedup_by_name ⟨[COLUMN_KEY], [[Value.vStr "ab cd"], [Value.vStr "zz"]]⟩
    ⟨[COLUMN_KEY], [[Value.vStr "AB cd "]]⟩ ⟨[COLUMN_KEY], []⟩ 75
    ⟨[COLUMN_KEY], [[Value.vStr "zz"]]⟩ 0 (by decide) (by decide)).1
    [Value.vStr "zz"]
